import Mathlib

/-!
# Stockwatch trend-classification engine: a shallow embedding

This file embeds the pure numerical core of the `stockwatch` repository —
`stockwatch/indicators.py` and `stockwatch/trend.py` — into Lean 4 and proves
the specification claims about it.

Modelling conventions:
* Python `float` values are modelled as `ℚ` plus an explicit NaN marker
  (`PF`), since the code's `_validate` helper explicitly tests `math.isnan`.
  Arithmetic only ever happens on series that passed validation (hence are
  NaN-free), so `PF.toQ` maps `nan` to an arbitrary value (`0`) that is never
  consulted by any proved property.
* `math.sqrt` is modelled by `ratSqrt`, a computable rational approximation of
  the real square root (12 decimal digits).  Every claim proved below depends
  on the square root only through `ratSqrt 0 = 0`, which holds for the real
  square root as well.
* Python's `round(x, k)` is banker's rounding (round half to even) on the
  value; it is modelled exactly by `pyRound` below.
* Python `int` volumes are modelled as `ℤ`.
* Division is `ℚ` division (total, `x / 0 = 0`).  The Python code guards every
  division that a claim exercises (`avg_loss == 0`, `p_prev == 0`,
  `avg_vol == 0`); the guards are translated faithfully.
-/

/-- A Python float restricted to what the code observes: either NaN or a
rational value. -/
inductive PF where
  | nan : PF
  | val (q : ℚ) : PF
deriving DecidableEq, Repr

/-- `math.isnan`. -/
def PF.isnan : PF → Bool
  | .nan => true
  | .val _ => false

/-- The rational value of a non-NaN float; `nan` maps to a dummy `0` that is
never consulted after validation. -/
def PF.toQ : PF → ℚ
  | .nan => 0
  | .val q => q

/-- Round half to even to the nearest integer, as Python's builtin `round`. -/
def roundHalfEven (x : ℚ) : ℤ :=
  let f : ℤ := ⌊x⌋
  let frac : ℚ := x - f
  if frac < 1/2 then f
  else if 1/2 < frac then f + 1
  else if f % 2 = 0 then f else f + 1

/-- Python `round(x, k)`: round half to even at the k-th decimal place. -/
def pyRound (x : ℚ) (k : ℕ) : ℚ :=
  (roundHalfEven (x * 10 ^ k) : ℚ) / 10 ^ k

/-- Newton iteration for the integer square root, on explicit fuel so that the
recursion is structural (hence kernel-reducible).  Descends from `guess` until
the iteration stops decreasing. -/
def newtonSqrtIter (fuel n guess : ℕ) : ℕ :=
  match fuel with
  | 0 => guess
  | fuel + 1 =>
    let next := (guess + n / guess) / 2
    if next < guess then newtonSqrtIter fuel n next else guess

/-- Integer square root (the floor of the real square root) via Newton's
method; `n` units of fuel are more than the `O(log n)` steps the descent can
take. -/
def iSqrt (n : ℕ) : ℕ :=
  if n ≤ 1 then n else newtonSqrtIter n n (n / 2)

/-- `math.sqrt`, modelled as a computable rational approximation of the real
square root (scaled integer square root, 12 decimal digits).  The claims below
use only `ratSqrt 0 = 0`. -/
def ratSqrt (q : ℚ) : ℚ :=
  (iSqrt (q.num.toNat * q.den * 10 ^ 24) : ℚ) / (q.den * 10 ^ 12)

namespace Stockwatch

/-- `indicators._validate`: length at least `min_len` and no NaN present. -/
def _validate (series : List PF) (minLen : ℕ) : Bool :=
  minLen ≤ series.length && !series.any PF.isnan

/-- `indicators.moving_average`: simple moving average of the last `window`
values (`prices[-window:]`, reached only when `window ≤ len`). -/
def moving_average (prices : List PF) (window : ℕ) : Option ℚ :=
  if _validate prices window then
    let tail := (prices.map PF.toQ).drop (prices.length - window)
    some (tail.sum / window)
  else
    none

/-- The loop body of the Wilder smoothing in `indicators.rsi`:
`avg = (avg * (period - 1) + gain_or_loss) / period` on the gain/loss pair. -/
def wilderStep (period : ℕ) (p : ℚ × ℚ) (d : ℚ) : ℚ × ℚ :=
  ((p.1 * ((period : ℚ) - 1) + max d 0) / period,
   (p.2 * ((period : ℚ) - 1) + |min d 0|) / period)

/-- `indicators.rsi`: Wilder's smoothed RSI.  `deltas` is the list of
consecutive differences, seeded with the simple averages of the first
`period` gains and losses, then smoothed over the remaining deltas. -/
def rsi (prices : List PF) (period : ℕ := 14) : Option ℚ :=
  if _validate prices (period + 1) then
    let ps := prices.map PF.toQ
    let deltas := List.zipWith (· - ·) ps.tail ps
    let gains := (deltas.take period).map (fun d => max d 0)
    let losses := (deltas.take period).map (fun d => |min d 0|)
    let seed : ℚ × ℚ := (gains.sum / period, losses.sum / period)
    let avg := (deltas.drop period).foldl (wilderStep period) seed
    if avg.2 = 0 then some 100
    else some (pyRound (100 - 100 / (1 + avg.1 / avg.2)) 4)
  else
    none

/-- `indicators.period_return`: `prices[-1] / prices[-(n+1)] - 1`, `None` when
too short, NaN present, or the denominator price is exactly `0`. -/
def period_return (prices : List PF) (n : ℕ) : Option ℚ :=
  if _validate prices (n + 1) then
    let ps := prices.map PF.toQ
    let p_now := ps.getD (ps.length - 1) 0
    let p_prev := ps.getD (ps.length - (n + 1)) 0
    if p_prev = 0 then none
    else some (p_now / p_prev - 1)
  else
    none

/-- `indicators.volatility`: annualised standard deviation of the daily
percentage changes over the last `period + 1` prices, rounded to 6 decimals. -/
def volatility (prices : List PF) (period : ℕ := 20) : Option ℚ :=
  if _validate prices (period + 1) then
    let tail := (prices.map PF.toQ).drop (prices.length - (period + 1))
    let daily_returns := (List.zipWith (· / ·) tail.tail tail).map (· - 1)
    let n : ℚ := daily_returns.length
    let mean := daily_returns.sum / n
    let variance := (daily_returns.map (fun r => (r - mean) ^ 2)).sum / n
    let std_dev := ratSqrt variance
    some (pyRound (std_dev * ratSqrt 252) 6)
  else
    none

/-- `indicators.volume_anomaly`: `True` iff the last volume is at least
`multiplier` times the mean of the previous `window` volumes
(`volumes[-(window+1):-1]`); `False` on short history or zero average. -/
def volume_anomaly (volumes : List ℤ) (multiplier : ℚ := 2)
    (window : ℕ := 20) : Bool :=
  if volumes.length < window + 1 then false
  else
    let win := (volumes.drop (volumes.length - (window + 1))).take window
    let avg_vol : ℚ := (win.sum : ℚ) / window
    if avg_vol = 0 then false
    else decide (multiplier * avg_vol ≤ ((volumes.getD (volumes.length - 1) 0 : ℤ) : ℚ))

/-- `trend.UPTREND`. -/
def UPTREND : String := "Uptrend"
/-- `trend.DOWNTREND`. -/
def DOWNTREND : String := "Downtrend"
/-- `trend.SIDEWAYS`. -/
def SIDEWAYS : String := "Sideways"

/-- `trend.TrendResult`. -/
structure TrendResult where
  label : String
  strength : ℚ
  ma20 : Option ℚ
  ma50 : Option ℚ
  rsi14 : Option ℚ
  return_1d : Option ℚ
  return_5d : Option ℚ
  return_20d : Option ℚ
  volatility_20d : Option ℚ
  volume_anomaly : Bool
  composite : ℚ
deriving DecidableEq, Repr

/-- `trend._ma_score`: MA-alignment sub-score on the 0–100 scale. -/
def _ma_score (price : ℚ) (ma20 ma50 : Option ℚ) : ℚ :=
  match ma20, ma50 with
  | none, none => 50
  | some ma, none => if price > ma then 70 else 30
  | none, some ma => if price > ma then 70 else 30
  | some m20, some m50 =>
    if price > m20 ∧ m20 > m50 then 90
    else if price < m20 ∧ m20 < m50 then 10
    else if price > m20 ∧ m20 ≤ m50 then 60
    else if price < m20 ∧ m20 ≥ m50 then 40
    else 50

/-- `trend._momentum_score`: `clamp(50 + return_20d * 350, 0, 100)`. -/
def _momentum_score (return_20d : Option ℚ) : ℚ :=
  match return_20d with
  | none => 50
  | some r => max 0 (min 100 (50 + r * 350))

/-- `trend._volatility_score`: bucketed mapping of annualised volatility. -/
def _volatility_score (vol : Option ℚ) : ℚ :=
  match vol with
  | none => 50
  | some v =>
    if v < 15/100 then 70
    else if v < 25/100 then 55
    else if v < 40/100 then 40
    else 25

/-- `trend.classify`: composite trend score and label. -/
def classify (prices : List PF) (volumes : List ℤ)
    (uptrend_min : ℚ := 62) (downtrend_max : ℚ := 38)
    (volume_anomaly_multiplier : ℚ := 2) : TrendResult :=
  let price := ((prices.getLast?).getD (PF.val 0)).toQ
  let ma20 := moving_average prices 20
  let ma50 := moving_average prices 50
  let rsi14 := rsi prices 14
  let ret_1d := period_return prices 1
  let ret_5d := period_return prices 5
  let ret_20d := period_return prices 20
  let vol_20d := volatility prices 20
  let vol_anom := volume_anomaly volumes volume_anomaly_multiplier 20
  let ma_s := _ma_score price ma20 ma50
  let rsi_s := rsi14.getD 50
  let mom_s := _momentum_score ret_20d
  let vol_s := _volatility_score vol_20d
  let composite₀ := 30/100 * ma_s + 25/100 * rsi_s + 30/100 * mom_s + 15/100 * vol_s
  let composite := max 0 (min 100 composite₀)
  let label :=
    if composite ≥ uptrend_min then UPTREND
    else if composite ≤ downtrend_max then DOWNTREND
    else SIDEWAYS
  { label := label
    strength := pyRound composite 1
    ma20 := ma20
    ma50 := ma50
    rsi14 := rsi14
    return_1d := ret_1d
    return_5d := ret_5d
    return_20d := ret_20d
    volatility_20d := vol_20d
    volume_anomaly := vol_anom
    composite := composite }

end Stockwatch

namespace Stockwatch

/-! ## Helper lemmas shared by several claims -/

/-- The label is decided by comparing the unrounded clamped composite against
the two caller-supplied thresholds, in the order written in `classify`. -/
theorem classify_label_def (prices : List PF) (volumes : List ℤ) (u d m : ℚ) :
    (classify prices volumes u d m).label =
      if (classify prices volumes u d m).composite ≥ u then UPTREND
      else if (classify prices volumes u d m).composite ≤ d then DOWNTREND
      else SIDEWAYS := rfl

/-- `_validate` fails on short input and on input containing a NaN. -/
theorem validate_false_of (series : List PF) (m : ℕ)
    (h : series.length < m ∨ series.any PF.isnan = true) :
    _validate series m = false := by
  rcases h with h | h
  · unfold _validate
    rw [decide_eq_false (Nat.not_le.mpr h)]
    rfl
  · unfold _validate
    rw [h]
    simp

end Stockwatch

open Stockwatch

/-- C1: for every prices and volumes input (and any thresholds and volume
multiplier), the `TrendResult` returned by `classify` has `composite` in the
closed interval `[0, 100]`, and `strength` equal to `composite` rounded to one
decimal place. -/
theorem claim_C1 (prices : List PF) (volumes : List ℤ) (u d m : ℚ) :
    0 ≤ (classify prices volumes u d m).composite ∧
      (classify prices volumes u d m).composite ≤ 100 ∧
      (classify prices volumes u d m).strength =
        pyRound (classify prices volumes u d m).composite 1 :=
  ⟨le_max_left _ _, max_le (by norm_num) (min_le_left _ _), rfl⟩

/-- C2: `classify` assigns the label from the unrounded clamped composite:
`Uptrend` when `composite ≥ uptrend_min`, else `Downtrend` when
`composite ≤ downtrend_max`, else `Sideways`; the rounded `strength` plays no
role in the decision. -/
theorem claim_C2 (prices : List PF) (volumes : List ℤ) (u d m : ℚ) :
    ((classify prices volumes u d m).composite ≥ u →
        (classify prices volumes u d m).label = UPTREND) ∧
      ((classify prices volumes u d m).composite < u →
        (classify prices volumes u d m).composite ≤ d →
        (classify prices volumes u d m).label = DOWNTREND) ∧
      ((classify prices volumes u d m).composite < u →
        d < (classify prices volumes u d m).composite →
        (classify prices volumes u d m).label = SIDEWAYS) := by
  refine ⟨fun h1 => ?_, fun h1 h2 => ?_, fun h1 h2 => ?_⟩ <;>
    rw [classify_label_def]
  · rw [if_pos h1]
  · rw [if_neg (not_le.mpr h1), if_pos h2]
  · rw [if_neg (not_le.mpr h1), if_neg (not_le.mpr h2)]

/-- C2 witness: on the default thresholds and an empty series the composite is
`50`, strictly between the thresholds, and the label is `Sideways`. -/
theorem claim_C2_witness : (classify [] [] 62 38 2).label = SIDEWAYS :=
  (claim_C2 [] [] 62 38 2).2.2 (by with_unfolding_all decide)
    (by with_unfolding_all decide)

/-- C3: the MA-alignment sub-score equals the stated five-way table: `50` with
no MA available; `70`/`30` with exactly one MA available according to whether
the price is above it; with both available `90` for a strict bullish stack,
`10` for a strict bearish stack, `60` and `40` in the transitional cases, and
`50` in every other combination (price equal to `ma20`). -/
theorem claim_C3 (price m20 m50 : ℚ) :
    _ma_score price none none = 50
  ∧ (price > m20 → _ma_score price (some m20) none = 70)
  ∧ (¬ price > m20 → _ma_score price (some m20) none = 30)
  ∧ (price > m50 → _ma_score price none (some m50) = 70)
  ∧ (¬ price > m50 → _ma_score price none (some m50) = 30)
  ∧ (price > m20 → m20 > m50 → _ma_score price (some m20) (some m50) = 90)
  ∧ (price < m20 → m20 < m50 → _ma_score price (some m20) (some m50) = 10)
  ∧ (price > m20 → m20 ≤ m50 → _ma_score price (some m20) (some m50) = 60)
  ∧ (price < m20 → m20 ≥ m50 → _ma_score price (some m20) (some m50) = 40)
  ∧ (price = m20 → _ma_score price (some m20) (some m50) = 50) := by
  refine ⟨rfl, fun h => if_pos h, fun h => if_neg h, fun h => if_pos h,
    fun h => if_neg h, fun h1 h2 => ?_, fun h1 h2 => ?_, fun h1 h2 => ?_,
    fun h1 h2 => ?_, fun h => ?_⟩
  · exact if_pos ⟨h1, h2⟩
  · rw [_ma_score, if_neg (fun c => lt_asymm h1 c.1), if_pos ⟨h1, h2⟩]
  · rw [_ma_score, if_neg (fun c => not_le.mpr c.2 h2),
      if_neg (fun c => lt_asymm h1 c.1), if_pos ⟨h1, h2⟩]
  · rw [_ma_score, if_neg (fun c => lt_asymm h1 c.1),
      if_neg (fun c => not_lt.mpr h2 c.2), if_neg (fun c => lt_asymm h1 c.1),
      if_pos ⟨h1, h2⟩]
  · subst h
    simp [_ma_score, lt_irrefl]

/-- C3 witness: a strict bullish stack scores `90`, a strict bearish stack
scores `10`, and exact price/MA equality scores `50`. -/
theorem claim_C3_witness :
    _ma_score 5 (some 3) (some 2) = 90 ∧ _ma_score 1 (some 3) (some 4) = 10 ∧
      _ma_score 3 (some 3) (some 2) = 50 :=
  ⟨(claim_C3 5 3 2).2.2.2.2.2.1 (by norm_num) (by norm_num),
   (claim_C3 1 3 4).2.2.2.2.2.2.1 (by norm_num) (by norm_num),
   (claim_C3 3 3 2).2.2.2.2.2.2.2.2.2 rfl⟩

/-- C10: when the caller-supplied thresholds overlap and the composite lands in
the overlap, the `Uptrend` test wins: the label is `Uptrend`. -/
theorem claim_C10 (prices : List PF) (volumes : List ℤ) (u d m : ℚ)
    (hud : u ≤ d)
    (h1 : u ≤ (classify prices volumes u d m).composite)
    (h2 : (classify prices volumes u d m).composite ≤ d) :
    (classify prices volumes u d m).label = UPTREND := by
  rw [classify_label_def, if_pos h1]

/-- C10 witness: with overlapping thresholds `0`/`100` the empty-series
composite `50` satisfies both tests and the label is `Uptrend`. -/
theorem claim_C10_witness : (classify [] [] 0 100 2).label = UPTREND :=
  claim_C10 [] [] 0 100 2 (by norm_num) (by with_unfolding_all decide)
    (by with_unfolding_all decide)

/-- C6: the four numeric indicators return the unavailable marker (`none`) —
never a number — whenever the input is shorter than their stated minimum
(`window`, `period+1`, `n+1`, `period+1` respectively) or contains a NaN, and
`period_return` additionally returns `none` when the price `n` positions back
is exactly `0`. -/
theorem claim_C6 (prices : List PF) (window period n : ℕ) :
    ((prices.length < window ∨ prices.any PF.isnan = true) →
        moving_average prices window = none)
  ∧ ((prices.length < period + 1 ∨ prices.any PF.isnan = true) →
        rsi prices period = none)
  ∧ ((prices.length < n + 1 ∨ prices.any PF.isnan = true) →
        period_return prices n = none)
  ∧ ((prices.length < period + 1 ∨ prices.any PF.isnan = true) →
        volatility prices period = none)
  ∧ (n + 1 ≤ prices.length → prices.any PF.isnan = false →
        (prices.map PF.toQ).getD (prices.length - (n + 1)) 0 = 0 →
        period_return prices n = none) := by
  refine ⟨fun h => ?_, fun h => ?_, fun h => ?_, fun h => ?_,
    fun hlen hnan hzero => ?_⟩
  · simp [moving_average, validate_false_of prices window h]
  · simp [rsi, validate_false_of prices (period + 1) h]
  · simp [period_return, validate_false_of prices (n + 1) h]
  · simp [volatility, validate_false_of prices (period + 1) h]
  · have hv : _validate prices (n + 1) = true := by
      simp [_validate, hlen, hnan]
    simp only [period_return, hv, if_true, List.length_map]
    rw [if_pos hzero]

/-- C6 witness: each indicator at a too-short input yields `none`, and
`period_return` yields `none` on a zero denominator price. -/
theorem claim_C6_witness :
    moving_average [PF.val 1] 2 = none ∧ rsi [PF.val 1] 1 = none ∧
      period_return [PF.val 1] 1 = none ∧ volatility [PF.val 1] 1 = none ∧
      period_return [PF.val 0, PF.val 1] 1 = none :=
  ⟨(claim_C6 [PF.val 1] 2 1 1).1 (Or.inl (by norm_num)),
   (claim_C6 [PF.val 1] 2 1 1).2.1 (Or.inl (by norm_num)),
   (claim_C6 [PF.val 1] 2 1 1).2.2.1 (Or.inl (by norm_num)),
   (claim_C6 [PF.val 1] 2 1 1).2.2.2.1 (Or.inl (by norm_num)),
   (claim_C6 [PF.val 0, PF.val 1] 2 1 1).2.2.2.2 (by norm_num) (by decide)
     (by decide)⟩

/-- C7: `volume_anomaly` is `true` iff the series has at least `window + 1`
entries, the simple mean of the prior `window` volumes (the window excludes
the last entry) is nonzero, and the last volume is at least `multiplier`
times that mean; on short history or a zero mean it is `false`, not an
unavailable marker. -/
theorem claim_C7 (volumes : List ℤ) (multiplier : ℚ) (window : ℕ)
    (hw : 0 < window) :
    volume_anomaly volumes multiplier window = true ↔
      (window + 1 ≤ volumes.length ∧
        ((((volumes.drop (volumes.length - (window + 1))).take window).sum : ℤ) : ℚ)
            / window ≠ 0 ∧
        multiplier *
            (((((volumes.drop (volumes.length - (window + 1))).take window).sum : ℤ) : ℚ)
              / window) ≤
          ((volumes.getD (volumes.length - 1) 0 : ℤ) : ℚ)) := by
  unfold volume_anomaly
  by_cases h1 : volumes.length < window + 1
  · rw [if_pos h1]
    simp only [Bool.false_eq_true, false_iff]
    intro hc
    exact absurd hc.1 (Nat.not_le.mpr h1)
  · rw [if_neg h1]
    by_cases h2 : ((List.take window (List.drop (volumes.length - (window + 1)) volumes)).sum : ℚ)
        / (window : ℚ) = 0
    · rw [if_pos h2]
      simp only [Bool.false_eq_true, false_iff]
      intro hc
      exact absurd h2 hc.2.1
    · rw [if_neg h2]
      simp only [decide_eq_true_eq]
      constructor
      · intro hle
        exact ⟨Nat.not_lt.mp h1, h2, hle⟩
      · intro hc
        exact hc.2.2

/-- C7 witness: 24 volumes of 1,000,000 followed by 2,000,000 triggers the
anomaly at multiplier 2, and with last value 1,999,999 it does not. -/
theorem claim_C7_witness :
    volume_anomaly (List.replicate 24 1000000 ++ [2000000]) 2 20 = true ∧
      volume_anomaly (List.replicate 24 1000000 ++ [1999999]) 2 20 = false :=
  ⟨(claim_C7 (List.replicate 24 1000000 ++ [2000000]) 2 20 (by norm_num)).mpr
      (by with_unfolding_all decide),
   Bool.eq_false_iff.mpr (fun ht =>
     absurd ((claim_C7 (List.replicate 24 1000000 ++ [1999999]) 2 20
         (by norm_num)).mp ht).2.2
       (by with_unfolding_all decide))⟩

/-- C8: on the 60-day geometric series `100·1.005^i` with constant volumes of
1,000,000 and default thresholds, `classify` returns the label `Uptrend` with
strength strictly greater than `80`. -/
theorem claim_C8 :
    (classify ((List.range 60).map (fun i => PF.val (100 * (1005/1000) ^ i)))
        (List.replicate 60 1000000)).label = UPTREND ∧
      80 < (classify ((List.range 60).map (fun i => PF.val (100 * (1005/1000) ^ i)))
        (List.replicate 60 1000000)).strength := by
  set_option maxRecDepth 100000 in with_unfolding_all decide

/-- C9: on an empty or NaN-containing price series (any volumes), `classify`
returns a result with every numeric indicator field unavailable (`none`),
composite exactly `50`, strength `50`, and label `Sideways` under the default
thresholds. -/
theorem claim_C9 (prices : List PF) (volumes : List ℤ)
    (h : prices = [] ∨ prices.any PF.isnan = true) :
    (classify prices volumes).ma20 = none ∧
      (classify prices volumes).ma50 = none ∧
      (classify prices volumes).rsi14 = none ∧
      (classify prices volumes).return_1d = none ∧
      (classify prices volumes).return_5d = none ∧
      (classify prices volumes).return_20d = none ∧
      (classify prices volumes).volatility_20d = none ∧
      (classify prices volumes).composite = 50 ∧
      (classify prices volumes).strength = 50 ∧
      (classify prices volumes).label = SIDEWAYS := by
  have hv : ∀ m : ℕ, 0 < m → _validate prices m = false := by
    intro m hm
    rcases h with h | h
    · refine validate_false_of prices m (Or.inl ?_)
      rw [h]
      simpa using hm
    · exact validate_false_of prices m (Or.inr h)
  have hma20 : moving_average prices 20 = none := by
    simp [moving_average, hv 20 (by norm_num)]
  have hma50 : moving_average prices 50 = none := by
    simp [moving_average, hv 50 (by norm_num)]
  have hrsi : rsi prices 14 = none := by
    simp [rsi, hv 15 (by norm_num)]
  have hr1 : period_return prices 1 = none := by
    simp [period_return, hv 2 (by norm_num)]
  have hr5 : period_return prices 5 = none := by
    simp [period_return, hv 6 (by norm_num)]
  have hr20 : period_return prices 20 = none := by
    simp [period_return, hv 21 (by norm_num)]
  have hvol : volatility prices 20 = none := by
    simp [volatility, hv 21 (by norm_num)]
  simp only [classify, hma20, hma50, hrsi, hr1, hr5, hr20, hvol,
    _ma_score, _momentum_score, _volatility_score, Option.getD_none]
  norm_num [pyRound, roundHalfEven, SIDEWAYS]

namespace Stockwatch

/-- On a strictly increasing list, every consecutive difference
(`zipWith (· - ·) l.tail l`, the shape used by `rsi`) is positive. -/
theorem zipWith_sub_tail_pos :
    ∀ l : List ℚ, l.Chain' (· < ·) →
      ∀ d ∈ List.zipWith (· - ·) l.tail l, 0 < d := by
  intro l
  induction l with
  | nil =>
    intro _ d hd
    simp at hd
  | cons a t ih =>
    intro h d hd
    cases t with
    | nil => simp at hd
    | cons b t' =>
      rw [List.chain'_cons] at h
      simp only [List.tail_cons, List.zipWith_cons_cons, List.mem_cons] at hd
      rcases hd with hd | hd
      · rw [hd]
        exact sub_pos.mpr h.1
      · exact ih h.2 d hd

/-- The loss component of the Wilder smoothing stays `0` when all remaining
deltas are nonnegative. -/
theorem wilder_foldl_snd_zero (period : ℕ) :
    ∀ ds : List ℚ, (∀ d ∈ ds, 0 ≤ d) → ∀ g : ℚ,
      ((ds.foldl (wilderStep period) (g, 0)).2 = 0) := by
  intro ds
  induction ds with
  | nil =>
    intro _ g
    rfl
  | cons d t ih =>
    intro h g
    have hd : 0 ≤ d := h d (List.mem_cons_self d t)
    have hstep : wilderStep period (g, 0) d =
        ((g * ((period : ℚ) - 1) + max d 0) / period, 0) := by
      simp [wilderStep, min_eq_right hd]
    rw [List.foldl_cons, hstep]
    exact ih (fun x hx => h x (List.mem_cons_of_mem d hx)) _

/-- `rsi` returns exactly `100` on any validated strictly increasing series:
all losses are zero, so the division-guard branch fires. -/
theorem rsi_eq_100_of_chain_lt (prices : List PF) (period : ℕ)
    (hv : _validate prices (period + 1) = true)
    (hmono : (prices.map PF.toQ).Chain' (· < ·)) :
    rsi prices period = some 100 := by
  have hpos : ∀ d ∈ List.zipWith (· - ·) (prices.map PF.toQ).tail
      (prices.map PF.toQ), 0 < d :=
    zipWith_sub_tail_pos (prices.map PF.toQ) hmono
  have hseed : (((List.zipWith (· - ·) (prices.map PF.toQ).tail
      (prices.map PF.toQ)).take period).map (fun d => |min d 0|)).sum = 0 := by
    refine List.sum_eq_zero ?_
    intro x hx
    obtain ⟨d, hd, rfl⟩ := List.mem_map.mp hx
    have hdpos := hpos d (List.mem_of_mem_take hd)
    simp [min_eq_right hdpos.le]
  simp only [rsi, hv, if_true]
  have hfold : (((List.zipWith (· - ·) (prices.map PF.toQ).tail
        (prices.map PF.toQ)).drop period).foldl (wilderStep period)
      ((((List.zipWith (· - ·) (prices.map PF.toQ).tail
        (prices.map PF.toQ)).take period).map (fun d => max d 0)).sum / period,
       (((List.zipWith (· - ·) (prices.map PF.toQ).tail
        (prices.map PF.toQ)).take period).map (fun d => |min d 0|)).sum / period)).2
      = 0 := by
    rw [hseed, zero_div]
    exact wilder_foldl_snd_zero period _
      (fun d hd => (hpos d (List.mem_of_mem_drop hd)).le) _
  rw [if_pos hfold]

end Stockwatch

/-- C4: for every strictly monotonically increasing NaN-free price series of
length at least `period + 1` (with a positive period, as used by the code),
`rsi` returns exactly `100`: the average loss is zero, so the
divide-by-zero-guard branch yields `100`. -/
theorem claim_C4 (prices : List PF) (period : ℕ) (hp : 0 < period)
    (hlen : period + 1 ≤ prices.length)
    (hnan : prices.any PF.isnan = false)
    (hmono : (prices.map PF.toQ).Chain' (· < ·)) :
    rsi prices period = some 100 :=
  rsi_eq_100_of_chain_lt prices period (by simp [_validate, hlen, hnan]) hmono

/-- C4 witness: the strictly increasing series `[1, 2, 3]` with period `2`
has RSI exactly `100`. -/
theorem claim_C4_witness : rsi [PF.val 1, PF.val 2, PF.val 3] 2 = some 100 :=
  claim_C4 [PF.val 1, PF.val 2, PF.val 3] 2 (by norm_num) (by norm_num)
    (by decide) (by norm_num [List.chain'_cons, List.chain'_singleton, PF.toQ])

/-- The rational-sqrt model maps `0` to exactly `0`. -/
theorem ratSqrt_zero : ratSqrt 0 = 0 := by
  norm_num [ratSqrt, iSqrt]

/-- Python rounding of `0` at any decimal place is exactly `0`. -/
theorem pyRound_zero (k : ℕ) : pyRound 0 k = 0 := by
  norm_num [pyRound, roundHalfEven]

namespace Stockwatch

/-- The geometric series `a·r^i` forms a constant-ratio chain. -/
theorem geom_chain' (a r : ℚ) (len : ℕ) :
    ((List.range len).map (fun i => a * r ^ i)).Chain' (fun x y => y = x * r) := by
  rw [List.chain'_map]
  cases len with
  | zero => simp
  | succ n =>
    rw [List.chain'_range_succ]
    intro m _
    rw [pow_succ]
    ring

/-- Daily percentage returns (in the `zipWith`-shape used by `volatility`) of
a nonzero constant-ratio list are all `r - 1`. -/
theorem ratio_returns_const (r : ℚ) :
    ∀ l : List ℚ, l.Chain' (fun x y => y = x * r) → (∀ x ∈ l, x ≠ 0) →
      (List.zipWith (· / ·) l.tail l).map (· - 1) =
        List.replicate (l.length - 1) (r - 1) := by
  intro l
  induction l with
  | nil =>
    intro _ _
    simp
  | cons x t ih =>
    intro hc hnz
    cases t with
    | nil => simp
    | cons y t' =>
      rw [List.chain'_cons] at hc
      have hx : x ≠ 0 := hnz x (List.mem_cons_self x _)
      have h2 := ih hc.2 (fun z hz => hnz z (List.mem_cons_of_mem x hz))
      simp only [List.tail_cons] at h2
      simp only [List.tail_cons, List.zipWith_cons_cons, List.map_cons, h2]
      have h1 : y / x - 1 = r - 1 := by
        rw [hc.1, mul_comm, mul_div_assoc, div_self hx, mul_one]
      rw [h1]
      simp [List.replicate_succ]

/-- `volatility` returns exactly `some 0` whenever the daily returns over its
window are constant. -/
theorem volatility_eq_zero_of_returns_const (prices : List PF) (period : ℕ)
    (c : ℚ) (hp : 0 < period)
    (hv : _validate prices (period + 1) = true)
    (hret : (List.zipWith (· / ·)
          ((prices.map PF.toQ).drop (prices.length - (period + 1))).tail
          ((prices.map PF.toQ).drop (prices.length - (period + 1)))).map (· - 1)
        = List.replicate period c) :
    volatility prices period = some 0 := by
  have hper : ((period : ℚ)) ≠ 0 := Nat.cast_ne_zero.mpr hp.ne'
  simp only [volatility, hv, if_true, hret, List.length_replicate,
    List.sum_replicate, nsmul_eq_mul, List.map_replicate]
  rw [mul_div_cancel_left₀ c hper]
  simp only [sub_self, ne_eq, OfNat.ofNat_ne_zero, not_false_eq_true,
    zero_pow, List.sum_replicate, smul_zero, zero_div, mul_zero,
    ratSqrt_zero, zero_mul, pyRound_zero]

end Stockwatch

open Stockwatch in
/-- C5: `volatility` returns exactly `0` (not merely a value close to `0`) on
every nonzero constant-value series and on every geometric
(constant-percentage-growth, nonzero ratio) series of length at least
`period + 1`. -/
theorem claim_C5 (c a r : ℚ) (len period : ℕ) (hp : 0 < period)
    (hc : c ≠ 0) (ha : a ≠ 0) (hr : r ≠ 0) (hlen : period + 1 ≤ len) :
    volatility (List.replicate len (PF.val c)) period = some 0 ∧
      volatility ((List.range len).map (fun i => PF.val (a * r ^ i))) period
        = some 0 := by
  have main : ∀ a' r' : ℚ, a' ≠ 0 → r' ≠ 0 →
      volatility ((List.range len).map (fun i => PF.val (a' * r' ^ i))) period
        = some 0 := by
    intro a' r' ha' hr'
    set prices := (List.range len).map (fun i => PF.val (a' * r' ^ i))
      with hprices
    have hmap : prices.map PF.toQ = (List.range len).map (fun i => a' * r' ^ i) := by
      rw [hprices, List.map_map]
      rfl
    have hlength : prices.length = len := by
      rw [hprices]
      simp
    have hnan : prices.any PF.isnan = false := by
      rw [hprices]
      simp [PF.isnan]
    have hv : _validate prices (period + 1) = true := by
      rw [_validate, hlength, hnan]
      simp [hlen]
    set t : List ℚ := ((List.range len).map (fun i => a' * r' ^ i)).drop
      (len - (period + 1)) with ht
    have hchain : t.Chain' (fun x y => y = x * r') :=
      (geom_chain' a' r' len).drop _
    have hnz : ∀ x ∈ t, x ≠ 0 := by
      intro x hx
      obtain ⟨i, _, rfl⟩ := List.mem_map.mp (List.mem_of_mem_drop hx)
      exact mul_ne_zero ha' (pow_ne_zero i hr')
    have htlen : t.length = period + 1 := by
      rw [ht, List.length_drop, List.length_map, List.length_range]
      omega
    have hret := ratio_returns_const r' t hchain hnz
    rw [htlen, Nat.add_sub_cancel] at hret
    refine volatility_eq_zero_of_returns_const prices period (r' - 1) hp hv ?_
    rw [hmap, hlength]
    exact hret
  refine ⟨?_, main a r ha hr⟩
  have hconst : (List.range len).map (fun i => PF.val (c * 1 ^ i)) =
      List.replicate len (PF.val c) := by
    simp only [one_pow, mul_one]
    rw [List.map_const', List.length_range]
  rw [show List.replicate len (PF.val c) =
    (List.range len).map (fun i => PF.val (c * 1 ^ i)) from hconst.symm]
  exact main c 1 hc one_ne_zero

/-- C5 witness: the constant series `[5,5,5]` and the geometric series
`[1,2,4]` both have volatility exactly `0` at period `2`. -/
theorem claim_C5_witness :
    volatility (List.replicate 3 (PF.val 5)) 2 = some 0 ∧
      volatility ((List.range 3).map (fun i => PF.val (1 * 2 ^ i))) 2 = some 0 :=
  claim_C5 5 1 2 3 2 (by norm_num) (by norm_num) (by norm_num) (by norm_num)
    (by norm_num)

/-- C9 witness: a NaN-containing single-entry series yields all-unavailable
indicators, composite `50`, strength `50`, and label `Sideways`. -/
theorem claim_C9_witness :
    (classify [PF.nan] [1000000]).ma20 = none ∧
      (classify [PF.nan] [1000000]).ma50 = none ∧
      (classify [PF.nan] [1000000]).rsi14 = none ∧
      (classify [PF.nan] [1000000]).return_1d = none ∧
      (classify [PF.nan] [1000000]).return_5d = none ∧
      (classify [PF.nan] [1000000]).return_20d = none ∧
      (classify [PF.nan] [1000000]).volatility_20d = none ∧
      (classify [PF.nan] [1000000]).composite = 50 ∧
      (classify [PF.nan] [1000000]).strength = 50 ∧
      (classify [PF.nan] [1000000]).label = SIDEWAYS :=
  claim_C9 [PF.nan] [1000000] (Or.inr (by decide))
